import Mathlib

/-!
Verification of the real-time audio transcription and AI-suggestion
orchestration engine (`app/services/meeting/audio_service.py`).

The Python class `AudioService` is shallowly embedded below.  Pure helper
methods become Lean functions; the stateful orchestration (audio buffer
manager, AI request sequencing, enqueue deduplication) becomes explicit
state passing over small state records, with cooperative-scheduling
interleavings made explicit at the `await` suspension points of the source.
Strings are modelled as Lean `String` restricted to the ASCII fragment the
Python helpers exercise; floats that only face threshold comparisons are
modelled as `ℚ`.
-/

namespace AudioSvc

/-! ### Python string primitives

`str.strip`, `str.lower`, `str.split` (no separator: split on whitespace
runs, dropping empties) as used by `AudioService`.  ASCII whitespace set of
CPython for these inputs. -/

def isPySpace (c : Char) : Bool :=
  c = ' ' || c = '\t' || c = '\n' || c = '\x0d' || c = '\x0b' || c = '\x0c'

/-- Python `str.strip()` on a character list: drop whitespace at both ends. -/
def pyStripList (l : List Char) : List Char :=
  ((l.dropWhile isPySpace).reverse.dropWhile isPySpace).reverse

/-- Python `str.strip()` on a `String`. -/
def pyStrip (s : String) : String :=
  String.mk (pyStripList s.toList)

/-- Python `str.lower()` (ASCII). -/
def pyLower (s : String) : String :=
  String.mk (s.toList.map Char.toLower)

/-- Helper for `str.split()`: accumulate the current word (reversed). -/
def pySplitGo : List Char → List Char → List (List Char)
  | [], acc => if acc = [] then [] else [acc.reverse]
  | c :: rest, acc =>
    if isPySpace c then
      if acc = [] then pySplitGo rest []
      else acc.reverse :: pySplitGo rest []
    else pySplitGo rest (c :: acc)

/-- Python `str.split()` with no separator: whitespace-run splitting, empties
dropped. -/
def pySplit (s : String) : List String :=
  (pySplitGo s.toList []).map String.mk

/-- The method `AudioService._normalize_request_text`:
`" ".join(text.strip().lower().split())`. -/
def normalize_request_text (text : String) : String :=
  String.intercalate " " (pySplit (pyLower (pyStrip text)))

/-! ### Deepgram phrase validation (`_is_deepgram_phrase_valid`) -/

/-- The `confidence` argument as it reaches `_is_deepgram_phrase_valid`:
`None`, a value `float()` rejects, or a parsed numeric value. -/
inductive ConfidenceValue where
  | absent : ConfidenceValue
  | unparseable : ConfidenceValue
  | val (q : ℚ) : ConfidenceValue
deriving DecidableEq

/-- Configuration fields of `AudioService` read by the validator
(`deepgram_min_chars`, `deepgram_min_confidence`,
`deepgram_ignored_phrases`). -/
structure DeepgramCfg where
  min_chars : ℕ
  min_confidence : ℚ
  ignored_phrases : List String
deriving DecidableEq

/-- Defaults: `MEETING_DEEPGRAM_MIN_CHARS` = 2,
`MEETING_DEEPGRAM_MIN_CONFIDENCE` = 0.45, empty ignore list.
(Rational literals are written with `mkRat` so that the kernel can
evaluate comparisons: `mkRat 45 100 = 0.45`.) -/
def defaultDeepgramCfg : DeepgramCfg :=
  { min_chars := 2, min_confidence := mkRat 45 100, ignored_phrases := [] }

/-- The method `AudioService._is_deepgram_phrase_valid` (audio_service.py lines
291-319). -/
def is_deepgram_phrase_valid (cfg : DeepgramCfg) (transcript : String)
    (confidence : ConfidenceValue) : Bool :=
  let text := pyStrip transcript
  if text.length < cfg.min_chars then false
  else
    let normalized := normalize_request_text text
    if normalized = "" then false
    else if normalized ∈ cfg.ignored_phrases then false
    else
      match confidence with
      | .absent => true
      | .unparseable => true
      | .val parsed_confidence =>
        if cfg.min_confidence ≤ parsed_confidence then true
        else
          let words := pySplit normalized
          if 3 ≤ words.length ∧ 12 ≤ normalized.length ∧ mkRat 2 10 ≤ parsed_confidence
          then true
          else false

/-! ### Latency telemetry (`_record_latency_metric`, `_percentile`,
`_latency_summary`, `_coerce_positive_int`) -/

/-- A Python value as it reaches `_coerce_positive_int`: `None`, something
`int(value)` rejects with `TypeError`/`ValueError`, or a value coercing to
the integer `z`. -/
inductive PyNum where
  | pyNone : PyNum
  | nonNumeric : PyNum
  | intVal (z : ℤ) : PyNum
deriving DecidableEq

/-- The method `AudioService._coerce_positive_int` (lines 187-192): `int(value)`,
`None` on failure, and `None` unless the result is strictly positive. -/
def coerce_positive_int : PyNum → Option ℤ
  | .pyNone => none
  | .nonNumeric => none
  | .intVal z => if 0 < z then some z else none

/-- The method `AudioService._record_latency_metric` (lines 809-819) acting on one
metric bucket.  `window` is `self.LATENCY_METRICS_WINDOW`.  The source
appends the coerced value and deletes `bucket[:overflow]` when the bucket
exceeds the window. -/
def record_latency_metric (window : ℤ) (bucket : List ℤ) (value_ms : PyNum) : List ℤ :=
  if window ≤ 0 then bucket
  else
    match coerce_positive_int value_ms with
    | none => bucket
    | some value =>
      let b := bucket ++ [value]
      let overflow : ℤ := (b.length : ℤ) - window
      if 0 < overflow then b.drop overflow.toNat else b

/-- Insertion step of `sorted(values)` (ascending, stable). -/
def sortInsert (x : ℤ) : List ℤ → List ℤ
  | [] => [x]
  | y :: ys => if x ≤ y then x :: y :: ys else y :: sortInsert x ys

/-- Python `sorted(values)` for integer lists. -/
def pySorted : List ℤ → List ℤ
  | [] => []
  | x :: xs => sortInsert x (pySorted xs)

/-- The method `AudioService._percentile` (lines 821-826): nearest-rank percentile,
`index = max(0, min(n - 1, (percentile * n + 99) // 100 - 1))` into the
sorted window.  All intermediate quantities are nonnegative, so Python's
floor division agrees with `Int` division here. -/
def percentile (values : List ℤ) (p : ℕ) : Option ℤ :=
  match values with
  | [] => none
  | _ =>
    let sorted := pySorted values
    let n : ℤ := (sorted.length : ℤ)
    let index : ℤ := max 0 (min (n - 1) ((p * n + 99) / 100 - 1))
    some (sorted.getD index.toNat 0)

/-- Result shape of `AudioService._latency_summary`. -/
structure LatencySummary where
  count : ℕ
  lastMs : Option ℤ
  minMs : Option ℤ
  maxMs : Option ℤ
  p50Ms : Option ℤ
  p95Ms : Option ℤ
deriving DecidableEq

/-- The method `AudioService._latency_summary` (lines 828-846). -/
def latency_summary (values : List ℤ) : LatencySummary :=
  match values with
  | [] => ⟨0, none, none, none, none, none⟩
  | v :: vs =>
    { count := (v :: vs).length
      lastMs := some ((v :: vs).getLast (by simp))
      minMs := some ((v :: vs).foldl min v)
      maxMs := some ((v :: vs).foldl max v)
      p50Ms := percentile (v :: vs) 50
      p95Ms := percentile (v :: vs) 95 }

/-! ### Sample-rate bookkeeping (`_set_sample_rate`, `_get_sample_rate`) -/

/-- The `sample_rate` argument of `_set_sample_rate`: `None`, a value that
is not a Python `int`, or an `int` `n`. -/
inductive SampleRateValue where
  | pyNone : SampleRateValue
  | nonInt : SampleRateValue
  | intVal (n : ℤ) : SampleRateValue
deriving DecidableEq

/-- The constant `self.SAMPLE_RATE` (line 150). -/
def SAMPLE_RATE : ℤ := 16000

/-- The method `AudioService._set_sample_rate` (lines 176-185), acting on the stored
entry for one `(meeting_id, user_id)` key (`none` = no entry). -/
def set_sample_rate (stored : Option ℤ) : SampleRateValue → Option ℤ
  | .pyNone => stored
  | .nonInt => stored
  | .intVal n => if n < 8000 ∨ 96000 < n then stored else some n

/-- The method `AudioService._get_sample_rate` (lines 173-174): stored value or the
16000 Hz default. -/
def get_sample_rate (stored : Option ℤ) : ℤ :=
  stored.getD SAMPLE_RATE

/-! ### Draft transcript emission (`_emit_deepgram_draft_transcript`) -/

/-- Configuration read by the draft path: `deepgram_draft_min_chars`
(default 4), `deepgram_ignored_phrases`, and
`deepgram_draft_emit_interval_ms` (default 280). -/
structure DraftCfg where
  draft_min_chars : ℕ
  ignored_phrases : List String
  draft_emit_interval_ms : ℤ
deriving DecidableEq

def defaultDraftCfg : DraftCfg :=
  { draft_min_chars := 4, ignored_phrases := [], draft_emit_interval_ms := 280 }

/-- The method `AudioService._is_deepgram_draft_valid` (lines 321-330). -/
def is_deepgram_draft_valid (cfg : DraftCfg) (transcript : String) : Bool :=
  let text := pyStrip transcript
  if text.length < cfg.draft_min_chars then false
  else
    let normalized := normalize_request_text text
    if normalized = "" then false
    else if normalized ∈ cfg.ignored_phrases then false
    else true

/-- The draft-related fields of a Deepgram stream state entry
(`lastDraftNorm`, `lastDraftAtMs`). -/
structure DraftState where
  lastDraftNorm : String
  lastDraftAtMs : ℤ
deriving DecidableEq

/-- The method `AudioService._emit_deepgram_draft_transcript` (lines 364-405),
restricted to its decision and the draft-state fields it mutates:
returns whether the draft transcript event is emitted, plus the updated
state.  `now_ms` is `int(time.time() * 1000)` at the call. -/
def emit_deepgram_draft_transcript (cfg : DraftCfg) (st : DraftState) (now_ms : ℤ)
    (transcript : String) : Bool × DraftState :=
  let text := pyStrip transcript
  if ¬ is_deepgram_draft_valid cfg text then (false, st)
  else
    let normalized := normalize_request_text text
    let last_draft_norm := st.lastDraftNorm
    let last_draft_at_ms := (coerce_positive_int (.intVal st.lastDraftAtMs)).getD 0
    if normalized = last_draft_norm then (false, st)
    else if last_draft_at_ms ≠ 0 ∧ now_ms - last_draft_at_ms < cfg.draft_emit_interval_ms
        ∧ normalized.length ≤ last_draft_norm.length then (false, st)
    else (true, { lastDraftNorm := normalized, lastDraftAtMs := now_ms })

/-! ### AI suggestion enqueue (`enqueue_ai_suggestion`) -/

/-- Throttling configuration: `AI_MIN_REQUEST_INTERVAL_MS` (default 400)
and `AI_DUPLICATE_WINDOW_MS` (default 3000). -/
structure AICfg where
  AI_MIN_REQUEST_INTERVAL_MS : ℤ
  AI_DUPLICATE_WINDOW_MS : ℤ
deriving DecidableEq

def defaultAICfg : AICfg :=
  { AI_MIN_REQUEST_INTERVAL_MS := 400, AI_DUPLICATE_WINDOW_MS := 3000 }

/-- One `ai_recent_enqueues` entry. -/
structure RecentEnqueue where
  arrivedAtMs : ℤ
  normalizedText : String
deriving DecidableEq

/-- What `enqueue_ai_suggestion` returns: the still-running existing task,
a fresh no-op task, or a freshly created generation task. -/
inductive EnqueueResult where
  | existingTask : EnqueueResult
  | noopTask : EnqueueResult
  | newTask : EnqueueResult
deriving DecidableEq

/-- The per-`(meeting_id, user_id)` state touched by
`enqueue_ai_suggestion`: the recent-enqueue record, whether an existing
generation task is present and not done, and an instrumentation counter of
`generate_ai_suggestion` tasks created so far. -/
structure EnqueueState where
  recent : Option RecentEnqueue
  taskRunning : Bool
  genCalls : ℕ
deriving DecidableEq

def initEnqueueState : EnqueueState := ⟨none, false, 0⟩

/-- The method `AudioService.enqueue_ai_suggestion` (lines 945-1022) for one
`(meeting_id, user_id)` key.  Mirrors the source: the duplicate branch
fires only when the normalized text is truthy (non-empty), equals the
recent normalized text, and arrived within the duplicate window; the
throttle branch fires when no task is running and the recent enqueue is
younger than the minimum interval; otherwise the recent record is
overwritten, any running task is cancelled, and a new generation task is
spawned. -/
def enqueue_ai_suggestion (cfg : AICfg) (st : EnqueueState) (now_ms : ℤ)
    (text : String) : EnqueueResult × EnqueueState :=
  let normalized_text := normalize_request_text text
  let spawned : EnqueueState :=
    { recent := some ⟨now_ms, normalized_text⟩, taskRunning := true,
      genCalls := st.genCalls + 1 }
  match st.recent with
  | none => (.newTask, spawned)
  | some recent =>
    let elapsed_ms : ℤ := max 0 (now_ms - recent.arrivedAtMs)
    if normalized_text ≠ "" ∧ recent.normalizedText = normalized_text
        ∧ elapsed_ms < cfg.AI_DUPLICATE_WINDOW_MS then
      (if st.taskRunning then .existingTask else .noopTask, st)
    else if ¬ st.taskRunning ∧ elapsed_ms < cfg.AI_MIN_REQUEST_INTERVAL_MS then
      (.noopTask, st)
    else
      (.newTask, spawned)

/-! ### Audio buffer manager (`_schedule_if_ready`, `handle_transcription`,
`process_audio_chunk` non-streaming path) -/

/-- The constant `self.PROCESS_THRESHOLD` (line 155). -/
def PROCESS_THRESHOLD : ℕ := 10000

/-- Per-`(meeting_id, user_id)` buffer-manager state: the byte buffer, the
minimum pending client timestamp (`buffer_client_start_ms`), the busy flag
(`is_processing`), and an instrumentation counter of spawned,
not-yet-finished `handle_transcription` tasks. -/
structure BufferState where
  buffer : List ℕ
  clientStartMs : Option ℤ
  busy : Bool
  inFlight : ℕ
deriving DecidableEq

def initBufferState : BufferState := ⟨[], none, false, 0⟩

/-- The method `AudioService._set_buffer_client_start` (lines 863-871): keep the
minimum of all pending positive client timestamps. -/
def set_buffer_client_start (st : BufferState) (client_sent_at_ms : PyNum) : BufferState :=
  match coerce_positive_int client_sent_at_ms with
  | none => st
  | some parsed =>
    match st.clientStartMs with
    | none => { st with clientStartMs := some parsed }
    | some existing =>
      if parsed < existing then { st with clientStartMs := some parsed } else st

/-- The method `AudioService._schedule_if_ready` (lines 1024-1043): when not busy and
the buffer has reached the threshold, atomically swap out the buffer, pop
the pending timestamp, set the busy flag, and spawn `handle_transcription`
(counted by `inFlight`). -/
def schedule_if_ready (st : BufferState) : BufferState :=
  if st.busy then st
  else if st.buffer.length < PROCESS_THRESHOLD then st
  else { buffer := [], clientStartMs := none, busy := true, inFlight := st.inFlight + 1 }

/-- The non-streaming path of `AudioService.process_audio_chunk`
(lines 1109-1114): record the client timestamp, append the decoded bytes,
then run the readiness check. -/
def submit_chunk (st : BufferState) (chunk : List ℕ) (client_sent_at_ms : PyNum) : BufferState :=
  let st1 := set_buffer_client_start st client_sent_at_ms
  let st2 := { st1 with buffer := st1.buffer ++ chunk }
  schedule_if_ready st2

/-- The `finally` block of `AudioService.handle_transcription`
(lines 1143-1146), reached on success and failure alike: the finished task
clears the busy flag and immediately re-runs the readiness check. -/
def complete_transcription (st : BufferState) : BufferState :=
  schedule_if_ready { st with busy := false, inFlight := st.inFlight - 1 }

/-- Buffer-manager events: a chunk submission, or the completion of a
spawned batch-transcription task. -/
inductive BufEvent where
  | submit (chunk : List ℕ) (client_sent_at_ms : PyNum) : BufEvent
  | complete : BufEvent

def bufStep (st : BufferState) : BufEvent → BufferState
  | .submit chunk t => submit_chunk st chunk t
  | .complete => complete_transcription st

def bufRun (events : List BufEvent) : BufferState :=
  events.foldl bufStep initBufferState

/-! ### AI suggestion generation (`_register_ai_request`,
`_is_latest_ai_request`, `generate_ai_suggestion`)

`generate_ai_suggestion` is a coroutine on a single cooperative event
loop: other tasks (in particular newer registrations for the same
`(meeting_id, user_id)`) can only run at its `await` suspension points —
the embedding call and the generative-model call.  The embedding of the
coroutine therefore takes, for each suspension point, the number of newer
requests registered there, and applies them to the sequencing state before
resuming.  The pinecone namespace loop is synchronous in the source, so no
interleaving happens between the two stale checks around it. -/

/-- Per-`(meeting_id, user_id)` AI request sequencing state:
`ai_request_seq` (0 when absent) and the `sequence` field of
`latest_ai_requests` (`none` when absent). -/
structure AIReqState where
  seqCounter : ℕ
  latest : Option ℕ
deriving DecidableEq

/-- The sequencing effect of `AudioService._register_ai_request`
(lines 906-939): take the next sequence number and record it as the
latest registered request. -/
def register_ai_request (st : AIReqState) : ℕ × AIReqState :=
  let next_seq := st.seqCounter + 1
  (next_seq, ⟨next_seq, some next_seq⟩)

/-- The method `AudioService._is_latest_ai_request` (lines 941-943). -/
def is_latest_ai_request (st : AIReqState) (sequence : ℕ) : Bool :=
  match st.latest with
  | none => false
  | some latest => latest = sequence

/-- Effect of `k` newer requests registering (each runs `_register_ai_request`). -/
def applyRegs (st : AIReqState) : ℕ → AIReqState
  | 0 => st
  | k + 1 => applyRegs (register_ai_request st).2 k

/-- A raw value as parsed by the `float(raw_score)` guard
(lines 1193-1197): missing attribute, unparseable, or a numeric value. -/
inductive PyFloat where
  | missing : PyFloat
  | nonNumeric : PyFloat
  | val (q : ℚ) : PyFloat
deriving DecidableEq

/-- The parse `raw_score = m.score if hasattr(m, 'score') else 0` followed by
`float(raw_score)` with fallback `0.0`. -/
def parse_score : PyFloat → ℚ
  | .missing => 0
  | .nonNumeric => 0
  | .val q => q

/-- One pinecone match: its `score` attribute and the `text` / `filename`
metadata entries. -/
structure MatchRec where
  score : PyFloat
  textMeta : Option String
  filenameMeta : Option String
deriving DecidableEq

/-- The similarity threshold of the compliance gate (line 1198):
`score > 0.75`. -/
def COMPLIANCE_THRESHOLD : ℚ := mkRat 75 100

def match_source (m : MatchRec) : String := m.filenameMeta.getD "Unknown Source"

def match_text (m : MatchRec) : String := m.textMeta.getD ""

/-- One citations-list entry (line 1202):
`{source, score, text: text_content[:100] + "..."}`. -/
structure Citation where
  source : String
  score : ℚ
  text : String
deriving DecidableEq

def citationOf (m : MatchRec) : Citation :=
  ⟨match_source m, parse_score m.score, String.mk ((match_text m).toList.take 100) ++ "..."⟩

/-- The namespace loop of `generate_ai_suggestion` (lines 1190-1202): for
each namespace's query result, in query order, append every match whose
parsed score exceeds the compliance threshold. -/
def keptMatches (nsMatches : List (List MatchRec)) : List MatchRec :=
  nsMatches.foldl
    (fun acc ns =>
      ns.foldl
        (fun acc2 m =>
          if COMPLIANCE_THRESHOLD < parse_score m.score then acc2 ++ [m] else acc2)
        acc)
    []

/-- The fixed compliance warning (line 1215). -/
def WARNING_MSG : String := "⚠️ NO VERIFIED SOURCES FOUND. ESCALATE OR VERIFY MANUAL."

/-- Externally visible actions of one `generate_ai_suggestion` run, in
program order.  `modelCall` records the context snippets passed to the
generative model; the two `broadcast*` events are the deliveries via
`manager.broadcast_to_admin`; the `persist*` events are
`save_transcript_to_db` calls. -/
inductive GenEvent where
  | persistCustomer (text : String) : GenEvent
  | modelCall (context : List MatchRec) : GenEvent
  | broadcastWarning (msg : String) (citations : List Citation) : GenEvent
  | broadcastSuggestion (suggestion : String) (citations : List Citation) : GenEvent
  | persistAssistant (msg : String) : GenEvent
deriving DecidableEq

/-- Delivery events: the broadcast of a suggestion or of the compliance
warning. -/
def GenEvent.isDelivery : GenEvent → Bool
  | .broadcastWarning _ _ => true
  | .broadcastSuggestion _ _ => true
  | _ => false

/-- Inputs of one `generate_ai_suggestion` run, with the environment's
behaviour at each suspension point made explicit. -/
structure GenInput where
  isDraft : Bool
  text : String
  embedOk : Bool
  regsDuringEmbed : ℕ
  nsMatches : List (List MatchRec)
  modelResponse : String
  regsDuringModel : ℕ
deriving DecidableEq

/-- The method `AudioService.generate_ai_suggestion` (lines 1148-1279): register the
request, persist the customer utterance for non-draft requests, await the
embedding (newer registrations may interleave), bail out if the embedding
is falsy or the request is stale, run the synchronous namespace loop,
re-check staleness, then either emit the fixed compliance warning with
empty citations (empty context) or call the model on the first three kept
snippets (newer registrations may interleave) and, if still latest, emit
the stripped suggestion with the kept citations.  Assistant persists are
skipped for draft requests. -/
def generate_ai_suggestion (st0 : AIReqState) (inp : GenInput) :
    List GenEvent × AIReqState :=
  let reg := register_ai_request st0
  let request_sequence := reg.1
  let st1 := reg.2
  let ev0 : List GenEvent := if inp.isDraft then [] else [.persistCustomer inp.text]
  let st2 := applyRegs st1 inp.regsDuringEmbed
  if ¬ inp.embedOk then (ev0, st2)
  else if ¬ is_latest_ai_request st2 request_sequence then (ev0, st2)
  else
    let kept := keptMatches inp.nsMatches
    if ¬ is_latest_ai_request st2 request_sequence then (ev0, st2)
    else if kept = [] then
      if ¬ is_latest_ai_request st2 request_sequence then (ev0, st2)
      else
        (ev0 ++ [.broadcastWarning WARNING_MSG []]
            ++ (if inp.isDraft then [] else [.persistAssistant WARNING_MSG]),
          st2)
    else
      let context := kept.take 3
      let evs1 := ev0 ++ [.modelCall context]
      let st3 := applyRegs st2 inp.regsDuringModel
      let suggestion := pyStrip inp.modelResponse
      if ¬ is_latest_ai_request st3 request_sequence then (evs1, st3)
      else
        (evs1 ++ [.broadcastSuggestion suggestion (kept.map citationOf)]
            ++ (if inp.isDraft then [] else [.persistAssistant suggestion]),
          st3)

/-- Stable insertion for descending score order. -/
def scoreInsertDesc (m : MatchRec) : List MatchRec → List MatchRec
  | [] => [m]
  | y :: ys =>
    if parse_score y.score < parse_score m.score then m :: y :: ys
    else y :: scoreInsertDesc m ys

def sortByScoreDesc : List MatchRec → List MatchRec
  | [] => []
  | x :: xs => scoreInsertDesc x (sortByScoreDesc xs)

/-- Modelled from the spec: "collect up to the three highest-scoring
context snippets" — the three kept matches of highest score. -/
def topThreeByScore (l : List MatchRec) : List MatchRec :=
  (sortByScoreDesc l).take 3

/-! ## Shared lemmas -/

/-- The buffer-manager invariant: the busy flag counts the in-flight
batch-transcription tasks exactly. -/
def BufInv (st : BufferState) : Prop :=
  st.inFlight = if st.busy then 1 else 0

theorem schedule_if_ready_inv (st : BufferState) (h : BufInv st) :
    BufInv (schedule_if_ready st) := by
  unfold BufInv schedule_if_ready at *
  by_cases hb : st.busy
  · simp [hb] at h ⊢
    exact h
  · simp [hb] at h ⊢
    by_cases hl : st.buffer.length < PROCESS_THRESHOLD
    · simp [hl, hb, h]
    · simp [hl]
      exact h

theorem set_buffer_client_start_fields (st : BufferState) (v : PyNum) :
    (set_buffer_client_start st v).busy = st.busy
      ∧ (set_buffer_client_start st v).inFlight = st.inFlight
      ∧ (set_buffer_client_start st v).buffer = st.buffer := by
  unfold set_buffer_client_start
  rcases coerce_positive_int v with _ | z
  · exact ⟨rfl, rfl, rfl⟩
  · rcases st.clientStartMs with _ | e
    · exact ⟨rfl, rfl, rfl⟩
    · by_cases hlt : z < e <;> simp [hlt]

theorem bufStep_inv (st : BufferState) (e : BufEvent) (h : BufInv st) :
    BufInv (bufStep st e) := by
  cases e with
  | submit chunk t =>
    apply schedule_if_ready_inv
    have hf := set_buffer_client_start_fields st t
    unfold BufInv at *
    show (set_buffer_client_start st t).inFlight
        = if (set_buffer_client_start st t).busy = true then 1 else 0
    rw [hf.2.1, hf.1]
    exact h
  | complete =>
    apply schedule_if_ready_inv
    unfold BufInv at *
    show st.inFlight - 1 = if (false : Bool) = true then 1 else 0
    simp only [Bool.false_eq_true, if_false]
    split at h <;> omega

theorem sortInsert_length (x : ℤ) (l : List ℤ) :
    (sortInsert x l).length = l.length + 1 := by
  induction l with
  | nil => rfl
  | cons y ys ih =>
    unfold sortInsert
    split
    · rfl
    · simp [ih]

theorem pySorted_length (l : List ℤ) : (pySorted l).length = l.length := by
  induction l with
  | nil => rfl
  | cons x xs ih =>
    unfold pySorted
    rw [sortInsert_length, ih, List.length_cons]

/-- Nearest-rank ceiling as integer division:
`⌈a / 100⌉ = (a + 99) / 100` on naturals. -/
theorem ceil_div_hundred (a : ℕ) : ⌈(a : ℚ) / 100⌉₊ = (a + 99) / 100 := by
  rcases Nat.eq_zero_or_pos a with ha | ha
  · subst ha; norm_num
  · have hmod := Nat.div_add_mod (a + 99) 100
    have hlt : (a + 99) % 100 < 100 := Nat.mod_lt _ (by norm_num)
    set d := (a + 99) / 100 with hd
    have hd1 : 1 ≤ d := by omega
    have hub : a ≤ 100 * d := by omega
    have hlb : 100 * (d - 1) < a := by omega
    rw [Nat.ceil_eq_iff (by omega)]
    constructor
    · rw [lt_div_iff₀ (by norm_num : (0:ℚ) < 100)]
      calc ((d - 1 : ℕ) : ℚ) * 100 = ((100 * (d - 1) : ℕ) : ℚ) := by push_cast; ring
        _ < a := by exact_mod_cast hlb
    · rw [div_le_iff₀ (by norm_num : (0:ℚ) < 100)]
      calc (a : ℚ) ≤ ((100 * d : ℕ) : ℚ) := by exact_mod_cast hub
        _ = (d : ℚ) * 100 := by push_cast; ring

/-- FIFO characterization of the latency window: starting empty, folding
`_record_latency_metric` over any inputs leaves exactly the last
`window` coerced samples (oldest evicted first). -/
theorem record_fold_lastN (W : ℤ) (hW : 0 < W) (inputs : List PyNum) :
    inputs.foldl (record_latency_metric W) []
      = (inputs.filterMap coerce_positive_int).drop
          ((inputs.filterMap coerce_positive_int).length - W.toNat) := by
  induction inputs using List.reverseRecOn with
  | nil => simp
  | append_singleton es v ih =>
    rw [List.foldl_append, List.foldl_cons, List.foldl_nil, ih, List.filterMap_append]
    rcases hv : coerce_positive_int v with _ | z
    · simp only [List.filterMap, hv]
      unfold record_latency_metric
      rw [if_neg (by omega), hv]
      simp
    · have hfm : List.filterMap coerce_positive_int [v] = [z] := by
        simp [List.filterMap, hv]
      rw [hfm]
      set cs := es.filterMap coerce_positive_int with hcs
      set k := cs.length - W.toNat with hk
      have hkle : k ≤ cs.length := Nat.sub_le _ _
      unfold record_latency_metric
      rw [if_neg (by omega), hv]
      simp only
      have hjoin : cs.drop k ++ [z] = (cs ++ [z]).drop k := by
        rw [List.drop_append_eq_append_drop, Nat.sub_eq_zero_of_le hkle, List.drop_zero]
      have hlen : (cs.drop k ++ [z]).length = cs.length - k + 1 := by
        simp [List.length_drop]
      rw [hjoin]
      have hlen2 : ((cs ++ [z]).drop k).length = cs.length - k + 1 := by
        rw [← hjoin]; exact hlen
      rw [hlen2]
      have hW1 : 1 ≤ W.toNat := by omega
      split
      · rw [List.drop_drop]
        congr 1
        simp only [List.length_append, List.length_cons, List.length_nil]
        omega
      · simp only [List.length_append, List.length_cons, List.length_nil]
        have : cs.length + 1 - W.toNat = k := by omega
        rw [this]

/-! ## Claim theorems -/

/-- C2: for every sequence of audio chunk submissions for a given
`(meeting_id, user_id)`, at most one batch transcription job is in flight
at any time.  `_schedule_if_ready` swaps out the buffer, clears the
pending-timestamp tracker and spawns `handle_transcription` exactly when
the busy flag is false and the buffer holds at least `PROCESS_THRESHOLD`
(10,000) bytes, setting the busy flag before spawning; and
`handle_transcription` unconditionally clears the busy flag and re-runs
the readiness check on completion. -/
theorem C2_single_batch_job_in_flight :
    (∀ events : List BufEvent, (bufRun events).inFlight ≤ 1)
      ∧ (∀ st : BufferState, st.busy = false → PROCESS_THRESHOLD ≤ st.buffer.length →
          schedule_if_ready st
            = { buffer := [], clientStartMs := none, busy := true,
                inFlight := st.inFlight + 1 })
      ∧ (∀ st : BufferState, st.busy = true ∨ st.buffer.length < PROCESS_THRESHOLD →
          schedule_if_ready st = st)
      ∧ (∀ st : BufferState, complete_transcription st
          = schedule_if_ready { st with busy := false, inFlight := st.inFlight - 1 })
      ∧ PROCESS_THRESHOLD = 10000 := by
  refine ⟨?_, ?_, ?_, fun _ => rfl, rfl⟩
  · intro events
    have h : BufInv (bufRun events) := by
      unfold bufRun
      induction events using List.reverseRecOn with
      | nil => rfl
      | append_singleton es e ih =>
        rw [List.foldl_append]
        exact bufStep_inv _ e ih
    unfold BufInv at h
    split at h <;> omega
  · intro st hb hl
    unfold schedule_if_ready
    simp [hb, Nat.not_lt.mpr hl]
  · intro st h
    unfold schedule_if_ready
    rcases h with hb | hl
    · simp [hb]
    · by_cases hb : st.busy
      · simp [hb]
      · simp [hb, hl]

/-- C5: each latency metric window holds at most `LATENCY_METRICS_WINDOW`
samples, oldest evicted first (recording disabled when the capacity is
≤ 0), and the percentile is nearest-rank on the sorted window with rank
`⌈p·n/100⌉` clamped to `[1, n]`.  For samples `[100, 200, 300, 400]` and
capacity 3 the summary is count 3, last 400, min 200, max 400, p50 300,
p95 400. -/
theorem C5_latency_window_and_percentiles :
    (∀ W : ℤ, 0 < W → ∀ inputs : List PyNum,
        inputs.foldl (record_latency_metric W) []
            = (inputs.filterMap coerce_positive_int).drop
                ((inputs.filterMap coerce_positive_int).length - W.toNat)
          ∧ (inputs.foldl (record_latency_metric W) []).length ≤ W.toNat)
      ∧ (∀ W : ℤ, W ≤ 0 → ∀ (bucket : List ℤ) (inputs : List PyNum),
          inputs.foldl (record_latency_metric W) bucket = bucket)
      ∧ (∀ (values : List ℤ) (p : ℕ), values ≠ [] →
          percentile values p
            = some ((pySorted values).getD
                (min values.length (max 1 ⌈((p * values.length : ℕ) : ℚ) / 100⌉₊) - 1) 0))
      ∧ [(100 : ℤ), 200, 300, 400].foldl (fun b v => record_latency_metric 3 b (.intVal v)) []
          = [200, 300, 400]
      ∧ latency_summary [200, 300, 400]
          = ⟨3, some 400, some 200, some 400, some 300, some 400⟩ := by
  refine ⟨?_, ?_, ?_, by decide, by decide⟩
  · intro W hW inputs
    have h := record_fold_lastN W hW inputs
    refine ⟨h, ?_⟩
    rw [h, List.length_drop]
    omega
  · intro W hle bucket inputs
    induction inputs generalizing bucket with
    | nil => rfl
    | cons v vs ih =>
      rw [List.foldl_cons]
      have hstep : record_latency_metric W bucket v = bucket := by
        unfold record_latency_metric
        rw [if_pos hle]
      rw [hstep]
      exact ih bucket
  · intro values p hne
    match values, hne with
    | v :: vs, _ =>
      rw [ceil_div_hundred]
      unfold percentile
      dsimp only
      rw [pySorted_length]
      have hcast : ((p : ℤ) * (((v :: vs).length : ℕ) : ℤ) + 99) / 100
          = (((p * (v :: vs).length + 99) / 100 : ℕ) : ℤ) := by
        rw [Int.ofNat_ediv]
        push_cast
        ring_nf
      rw [hcast]
      congr 1
      congr 1
      have hL : 1 ≤ (v :: vs).length := by simp
      omega

/-- C5 witness: the FIFO characterization applied to the claim's sample
run, and the nearest-rank form of p50/p95 on `[200, 300, 400]`. -/
theorem C5_latency_window_and_percentiles_witness :
    [(.intVal 100 : PyNum), .intVal 200, .intVal 300, .intVal 400].foldl
        (record_latency_metric 3) []
      = [200, 300, 400]
      ∧ percentile [200, 300, 400] 50
          = some ((pySorted [200, 300, 400]).getD
              (min 3 (max 1 ⌈((50 * 3 : ℕ) : ℚ) / 100⌉₊) - 1) 0)
      ∧ percentile [200, 300, 400] 95
          = some ((pySorted [200, 300, 400]).getD
              (min 3 (max 1 ⌈((95 * 3 : ℕ) : ℚ) / 100⌉₊) - 1) 0) := by
  refine ⟨?_, ?_, ?_⟩
  · have h := (C5_latency_window_and_percentiles.1 3 (by decide)
      [.intVal 100, .intVal 200, .intVal 300, .intVal 400]).1
    rw [h]
    decide
  · exact C5_latency_window_and_percentiles.2.2.1 [200, 300, 400] 50 (by decide)
  · exact C5_latency_window_and_percentiles.2.2.1 [200, 300, 400] 95 (by decide)

/-- C8: a submitted sample rate that is absent, not an integer, or outside
8000–96000 Hz leaves the stored per-participant sample rate unchanged
(prior value, or the 16000 Hz default when none was accepted); an in-range
value replaces it. -/
theorem C8_sample_rate_validation :
    (∀ stored : Option ℤ, set_sample_rate stored .pyNone = stored)
      ∧ (∀ stored : Option ℤ, set_sample_rate stored .nonInt = stored)
      ∧ (∀ (stored : Option ℤ) (n : ℤ), n < 8000 ∨ 96000 < n →
          set_sample_rate stored (.intVal n) = stored)
      ∧ (∀ (stored : Option ℤ) (n : ℤ), 8000 ≤ n → n ≤ 96000 →
          get_sample_rate (set_sample_rate stored (.intVal n)) = n)
      ∧ get_sample_rate none = 16000 := by
  refine ⟨fun _ => rfl, fun _ => rfl, ?_, ?_, rfl⟩
  · intro stored n h
    unfold set_sample_rate
    simp [h]
  · intro stored n h1 h2
    unfold set_sample_rate get_sample_rate
    have : ¬ (n < 8000 ∨ 96000 < n) := by omega
    simp [this]

/-- C8 witness: 44100 Hz is accepted and replaces a stored 16000; 7999 is
rejected with the prior value retained; with no accepted value the default
16000 is reported. -/
theorem C8_sample_rate_validation_witness :
    set_sample_rate (some 16000) (.intVal 7999) = some 16000
      ∧ get_sample_rate (set_sample_rate (some 16000) (.intVal 44100)) = 44100
      ∧ get_sample_rate none = 16000 := by
  refine ⟨C8_sample_rate_validation.2.2.1 (some 16000) 7999 (by decide),
    C8_sample_rate_validation.2.2.2.1 (some 16000) 44100 (by decide) (by decide),
    C8_sample_rate_validation.2.2.2.2⟩

/-- C10 (implicit): recording a latency sample that does not coerce to a
strictly positive integer (0, negatives, `None`, non-numeric) leaves every
latency metric window unchanged — the bucket, its count and its summary
are unaffected — and a genuine 0 ms measurement is never recorded: every
value in any reachable bucket is strictly positive. -/
theorem C10_nonpositive_latency_samples_dropped :
    (∀ (window : ℤ) (bucket : List ℤ) (v : PyNum), coerce_positive_int v = none →
        record_latency_metric window bucket v = bucket
          ∧ latency_summary (record_latency_metric window bucket v) = latency_summary bucket)
      ∧ (∀ z : ℤ, z ≤ 0 → coerce_positive_int (.intVal z) = none)
      ∧ coerce_positive_int .pyNone = none
      ∧ coerce_positive_int .nonNumeric = none
      ∧ (∀ (window : ℤ) (inputs : List PyNum) (x : ℤ),
          x ∈ inputs.foldl (record_latency_metric window) [] → 0 < x) := by
  refine ⟨?_, ?_, rfl, rfl, ?_⟩
  · intro window bucket v h
    have hrec : record_latency_metric window bucket v = bucket := by
      unfold record_latency_metric
      split
      · rfl
      · rw [h]
    exact ⟨hrec, by rw [hrec]⟩
  · intro z hz
    unfold coerce_positive_int
    simp [Int.not_lt.mpr hz]
  · intro window inputs
    have key : ∀ (bucket : List ℤ), (∀ x ∈ bucket, 0 < x) →
        ∀ x ∈ inputs.foldl (record_latency_metric window) bucket, 0 < x := by
      induction inputs with
      | nil => intro bucket hb x hx; exact hb x hx
      | cons v vs ih =>
        intro bucket hb
        rw [List.foldl_cons]
        apply ih
        intro x hx
        unfold record_latency_metric at hx
        split at hx
        · exact hb x hx
        · rcases hv : coerce_positive_int v with _ | z
          · rw [hv] at hx
            exact hb x hx
          · rw [hv] at hx
            simp only at hx
            have hz : 0 < z := by
              unfold coerce_positive_int at hv
              rcases v with _ | _ | w
              · exact absurd hv (by simp)
              · exact absurd hv (by simp)
              · by_cases hw : 0 < w
                · simp [hw] at hv
                  omega
                · simp [hw] at hv
            have hmem : x ∈ bucket ++ [z] := by
              split at hx
              · exact List.drop_subset _ _ hx
              · exact hx
            rcases List.mem_append.mp hmem with h | h
            · exact hb x h
            · simp at h
              omega
    exact fun x hx => key [] (by simp) x hx

/-- C10 witness: recording `None`, a non-numeric value, 0 and −5 into a
window of capacity 3 leaves the bucket `[7]` untouched, and no reachable
bucket contains 0. -/
theorem C10_nonpositive_latency_samples_dropped_witness :
    record_latency_metric 3 [7] .pyNone = [7]
      ∧ record_latency_metric 3 [7] (.intVal 0) = [7]
      ∧ record_latency_metric 3 [7] (.intVal (-5)) = [7]
      ∧ record_latency_metric 3 [7] .nonNumeric = [7]
      ∧ ¬ (0 : ℤ) ∈ [(.intVal 0 : PyNum), .intVal 9, .pyNone].foldl
            (record_latency_metric 3) [] := by
  refine ⟨(C10_nonpositive_latency_samples_dropped.1 3 [7] .pyNone rfl).1,
    (C10_nonpositive_latency_samples_dropped.1 3 [7] (.intVal 0) (by decide)).1,
    (C10_nonpositive_latency_samples_dropped.1 3 [7] (.intVal (-5)) (by decide)).1,
    (C10_nonpositive_latency_samples_dropped.1 3 [7] .nonNumeric rfl).1,
    fun hmem => ?_⟩
  exact absurd (C10_nonpositive_latency_samples_dropped.2.2.2.2 3
    [.intVal 0, .intVal 9, .pyNone] 0 hmem) (by decide)

/-- C2 witness: a non-busy state holding exactly 10,000 buffered bytes
spawns one job (busy set, buffer swapped out, tracker cleared); a busy
state is left alone; the empty trace has no job in flight. -/
theorem C2_single_batch_job_in_flight_witness :
    schedule_if_ready ⟨List.replicate 10000 0, some 5, false, 0⟩
        = ⟨[], none, true, 1⟩
      ∧ schedule_if_ready ⟨List.replicate 10000 0, some 5, true, 1⟩
          = ⟨List.replicate 10000 0, some 5, true, 1⟩
      ∧ (bufRun []).inFlight ≤ 1 := by
  refine ⟨?_, ?_, C2_single_batch_job_in_flight.1 []⟩
  · exact C2_single_batch_job_in_flight.2.1 ⟨List.replicate 10000 0, some 5, false, 0⟩ rfl
      (by rw [List.length_replicate]; decide)
  · exact C2_single_batch_job_in_flight.2.2.1 ⟨List.replicate 10000 0, some 5, true, 1⟩
      (Or.inl rfl)

/-- C3: the final-transcript validity check accepts exactly when the
stripped text has at least `min_chars` characters, the normalization is
non-empty and not ignored, and the confidence is absent/unparseable, at
least `min_confidence` (default 0.45), or at least 0.2 for a phrase of at
least 3 words and 12 normalized characters.  In particular, confidence 0.1
with "thank you" is rejected and confidence 0.23 with "I need help with my
policy details" is accepted. -/
theorem C3_final_transcript_validity :
    (∀ (cfg : DeepgramCfg) (transcript : String) (confidence : ConfidenceValue),
        is_deepgram_phrase_valid cfg transcript confidence = true ↔
          (cfg.min_chars ≤ (pyStrip transcript).length
            ∧ normalize_request_text (pyStrip transcript) ≠ ""
            ∧ normalize_request_text (pyStrip transcript) ∉ cfg.ignored_phrases
            ∧ ∀ q : ℚ, confidence = .val q →
                (cfg.min_confidence ≤ q
                  ∨ (3 ≤ (pySplit (normalize_request_text (pyStrip transcript))).length
                      ∧ 12 ≤ (normalize_request_text (pyStrip transcript)).length
                      ∧ mkRat 2 10 ≤ q))))
      ∧ is_deepgram_phrase_valid defaultDeepgramCfg "thank you" (.val (mkRat 1 10)) = false
      ∧ is_deepgram_phrase_valid defaultDeepgramCfg
          "I need help with my policy details" (.val (mkRat 23 100)) = true := by
  refine ⟨?_, by decide, by decide⟩
  intro cfg transcript confidence
  cases confidence <;>
    (unfold is_deepgram_phrase_valid; dsimp only) <;>
    split_ifs <;>
    simp_all

/-- C3 witness: the validity characterization applied at the default
configuration to a phrase with absent confidence. -/
theorem C3_final_transcript_validity_witness :
    is_deepgram_phrase_valid defaultDeepgramCfg "hello there friend" .absent = true := by
  refine (C3_final_transcript_validity.1 defaultDeepgramCfg "hello there friend" .absent).mpr
    ⟨by decide, by decide, by decide, ?_⟩
  intro q hq
  cases hq

/-- C9: a valid interim (draft) transcript is emitted exactly when its
normalized text differs from the last emitted draft's normalized text and
either the minimum draft interval (default 280 ms) has elapsed since the
last draft emission or the new normalized text is strictly longer than the
last one (then emitted immediately).  The hypothesis
`draft_emit_interval_ms ≤ now_ms` holds for any real epoch-milliseconds
clock and makes the never-emitted state (`lastDraftAtMs = 0`) count as
"interval elapsed". -/
theorem C9_draft_rate_limiting (cfg : DraftCfg) (st : DraftState) (now_ms : ℤ)
    (transcript : String) (hnow : cfg.draft_emit_interval_ms ≤ now_ms) :
    (emit_deepgram_draft_transcript cfg st now_ms transcript).1 = true ↔
      (is_deepgram_draft_valid cfg (pyStrip transcript) = true
        ∧ normalize_request_text (pyStrip transcript) ≠ st.lastDraftNorm
        ∧ (cfg.draft_emit_interval_ms ≤ now_ms - st.lastDraftAtMs
            ∨ st.lastDraftNorm.length
                < (normalize_request_text (pyStrip transcript)).length)) := by
  unfold emit_deepgram_draft_transcript
  dsimp only
  have hcoerce : (coerce_positive_int (.intVal st.lastDraftAtMs)).getD 0
      = if 0 < st.lastDraftAtMs then st.lastDraftAtMs else 0 := by
    unfold coerce_positive_int
    by_cases hA : 0 < st.lastDraftAtMs <;> simp [hA]
  by_cases hv : is_deepgram_draft_valid cfg (pyStrip transcript) = true
  · rw [if_neg (fun hc => hc hv)]
    by_cases heq : normalize_request_text (pyStrip transcript) = st.lastDraftNorm
    · rw [if_pos heq]
      simp [heq, hv]
    · rw [if_neg heq]
      rw [hcoerce]
      by_cases hA : 0 < st.lastDraftAtMs
      · rw [if_pos hA]
        split_ifs with hD
        · simp only [false_iff]
          intro hcontra
          rcases hcontra with ⟨-, -, h3⟩
          omega
        · simp only [true_iff]
          refine ⟨hv, heq, ?_⟩
          omega
      · rw [if_neg hA]
        split_ifs with hD
        · omega
        · simp only [true_iff]
          refine ⟨hv, heq, ?_⟩
          omega
  · rw [if_pos (fun hc => absurd hc hv)]
    simp [hv]

/-- C9 witness: with the default config at time 100000 ms, a draft "hello
there" after an emission of normalized "hi all" 100 ms earlier is
suppressed neither by dedup nor by rate limit only when longer — here
"hello there" (11 chars) is longer than "hi all" (6 chars), so it is
emitted; the same text repeated is not. -/
theorem C9_draft_rate_limiting_witness :
    (emit_deepgram_draft_transcript defaultDraftCfg ⟨"hi all", 99900⟩ 100000
        "hello there").1 = true
      ∧ (emit_deepgram_draft_transcript defaultDraftCfg ⟨"hello there", 99900⟩ 100000
          "hello there").1 = false := by
  constructor
  · exact (C9_draft_rate_limiting defaultDraftCfg ⟨"hi all", 99900⟩ 100000
      "hello there" (by decide)).mpr ⟨by decide, by decide, Or.inr (by decide)⟩
  · have h := C9_draft_rate_limiting defaultDraftCfg ⟨"hello there", 99900⟩ 100000
      "hello there" (by decide)
    by_cases hemit : (emit_deepgram_draft_transcript defaultDraftCfg
        ⟨"hello there", 99900⟩ 100000 "hello there").1 = true
    · rcases h.mp hemit with ⟨-, hne, -⟩
      exact absurd (by decide) hne
    · simpa using hemit

/-- C4 counterexample: the claim fails for text normalizing to the empty
string.  Enqueue whitespace-only text at t=1000 (spawning a task and
recording normalized text ""), then whitespace-only text again at t=1500:
the normalizations are equal and 500 ms < 3000 ms is inside the duplicate
window, yet the second call starts a second generation task (the source's
duplicate branch requires a truthy `normalized_text`). -/
theorem C4_duplicate_window_skip_counterexample :
    ((enqueue_ai_suggestion defaultAICfg initEnqueueState 1000 "  ").2.recent
        = some ⟨1000, ""⟩)
      ∧ normalize_request_text " " = ""
      ∧ ((1500 : ℤ) - 1000 < defaultAICfg.AI_DUPLICATE_WINDOW_MS)
      ∧ (enqueue_ai_suggestion defaultAICfg
            ((enqueue_ai_suggestion defaultAICfg initEnqueueState 1000 "  ").2)
            1500 " ").1 = .newTask
      ∧ (enqueue_ai_suggestion defaultAICfg
            ((enqueue_ai_suggestion defaultAICfg initEnqueueState 1000 "  ").2)
            1500 " ").2.genCalls = 2 := by decide

/-- C4 (amended): if `enqueue_ai_suggestion` is called with text whose
normalization is NON-EMPTY and equals the normalized text of the most
recent prior enqueue for the same participant, within the duplicate window
(default 3000 ms), then no new generation task is started: the state is
unchanged and the call returns the still-running existing task when one
exists, otherwise a no-op task. -/
theorem C4_duplicate_window_skip (cfg : AICfg) (st : EnqueueState) (now_ms : ℤ)
    (text : String) (r : RecentEnqueue)
    (hrec : st.recent = some r)
    (hne : normalize_request_text text ≠ "")
    (heq : r.normalizedText = normalize_request_text text)
    (hwin : max 0 (now_ms - r.arrivedAtMs) < cfg.AI_DUPLICATE_WINDOW_MS) :
    (enqueue_ai_suggestion cfg st now_ms text).1
        = (if st.taskRunning then .existingTask else .noopTask)
      ∧ (enqueue_ai_suggestion cfg st now_ms text).2 = st := by
  unfold enqueue_ai_suggestion
  rw [hrec]
  dsimp only
  rw [if_pos ⟨hne, heq, hwin⟩]
  exact ⟨rfl, rfl⟩

/-- C4 witness: enqueue "Hello customer" at t=1000, then
" hello   customer " (same case/whitespace-insensitive normalization) at
t=2000, inside the 3000 ms window: the second call returns the still
running task and exactly one generation call has been made. -/
theorem C4_duplicate_window_skip_witness :
    (enqueue_ai_suggestion defaultAICfg
        ((enqueue_ai_suggestion defaultAICfg initEnqueueState 1000 "Hello customer").2)
        2000 " hello   customer ").1 = .existingTask
      ∧ (enqueue_ai_suggestion defaultAICfg
          ((enqueue_ai_suggestion defaultAICfg initEnqueueState 1000 "Hello customer").2)
          2000 " hello   customer ").2.genCalls = 1 := by
  have hst : (enqueue_ai_suggestion defaultAICfg initEnqueueState 1000 "Hello customer").2
      = ⟨some ⟨1000, "hello customer"⟩, true, 1⟩ := by decide
  have h := C4_duplicate_window_skip defaultAICfg
    ⟨some ⟨1000, "hello customer"⟩, true, 1⟩ 2000 " hello   customer "
    ⟨1000, "hello customer"⟩ rfl (by decide) (by decide) (by decide)
  rw [hst]
  exact ⟨h.1.trans (by decide), by rw [h.2]⟩

theorem foldl_keep_eq_filter (ns : List MatchRec) (acc : List MatchRec) :
    ns.foldl
        (fun acc2 m =>
          if COMPLIANCE_THRESHOLD < parse_score m.score then acc2 ++ [m] else acc2)
        acc
      = acc ++ ns.filter (fun m => decide (COMPLIANCE_THRESHOLD < parse_score m.score)) := by
  induction ns generalizing acc with
  | nil => simp
  | cons m ms ih =>
    rw [List.foldl_cons, List.filter_cons]
    by_cases hm : COMPLIANCE_THRESHOLD < parse_score m.score
    · rw [if_pos hm, ih]
      simp [hm]
    · rw [if_neg hm, ih]
      simp [hm]

theorem keptMatches_eq_filter (nss : List (List MatchRec)) :
    keptMatches nss
      = nss.flatten.filter (fun m => decide (COMPLIANCE_THRESHOLD < parse_score m.score)) := by
  unfold keptMatches
  suffices hgen : ∀ acc : List MatchRec,
      nss.foldl
          (fun acc ns =>
            ns.foldl
              (fun acc2 m =>
                if COMPLIANCE_THRESHOLD < parse_score m.score then acc2 ++ [m] else acc2)
              acc)
          acc
        = acc ++ nss.flatten.filter
            (fun m => decide (COMPLIANCE_THRESHOLD < parse_score m.score)) by
    simpa using hgen []
  induction nss with
  | nil => simp
  | cons ns rest ih =>
    intro acc
    rw [List.foldl_cons, foldl_keep_eq_filter, ih, List.flatten_cons, List.filter_append,
      List.append_assoc]

theorem applyRegs_state (k : ℕ) (st : AIReqState) (h : st.latest = some st.seqCounter) :
    (applyRegs st k).latest = some (st.seqCounter + k)
      ∧ (applyRegs st k).seqCounter = st.seqCounter + k := by
  induction k generalizing st with
  | zero => constructor <;> simp [applyRegs, h]
  | succ n ih =>
    unfold applyRegs register_ai_request
    dsimp only
    have hstep := ih ⟨st.seqCounter + 1, some (st.seqCounter + 1)⟩ rfl
    dsimp only at hstep
    constructor
    · rw [hstep.1]
      congr 1
      omega
    · rw [hstep.2]
      omega

/-- The check `_is_latest_ai_request` holds after `k` further registrations exactly
when `k = 0`. -/
theorem is_latest_after_regs (k : ℕ) (st : AIReqState) (h : st.latest = some st.seqCounter) :
    is_latest_ai_request (applyRegs st k) st.seqCounter = (k = 0 : Bool) := by
  have hs := applyRegs_state k st h
  unfold is_latest_ai_request
  rw [hs.1]
  rcases k with _ | n
  · simp
  · simp

/-- C7: when a still-current request finds zero knowledge-index matches
above the 0.75 threshold, `generate_ai_suggestion` emits exactly the fixed
compliance warning with an empty citations list, persists it as an
assistant transcript entry for non-draft requests, and never calls the
generative model. -/
theorem C7_no_sources_emits_fixed_warning (st0 : AIReqState) (inp : GenInput)
    (hek : inp.embedOk = true) (hreg : inp.regsDuringEmbed = 0)
    (hkept : keptMatches inp.nsMatches = []) :
    (generate_ai_suggestion st0 inp).1
        = (if inp.isDraft then [] else [.persistCustomer inp.text])
            ++ [.broadcastWarning WARNING_MSG []]
            ++ (if inp.isDraft then [] else [.persistAssistant WARNING_MSG])
      ∧ ∀ ctx, GenEvent.modelCall ctx ∉ (generate_ai_suggestion st0 inp).1 := by
  have hmain : (generate_ai_suggestion st0 inp).1
      = (if inp.isDraft then [] else [.persistCustomer inp.text])
          ++ [.broadcastWarning WARNING_MSG []]
          ++ (if inp.isDraft then [] else [.persistAssistant WARNING_MSG]) := by
    unfold generate_ai_suggestion
    dsimp only
    rw [hreg, hek, hkept]
    simp [register_ai_request, is_latest_ai_request, applyRegs]
  refine ⟨hmain, ?_⟩
  intro ctx hmem
  rw [hmain] at hmem
  rcases inp.isDraft <;> simp at hmem

/-- C7 witness: a concrete run (non-draft, current, one namespace whose
matches all score at most 0.75) produces exactly the customer persist, the
fixed warning broadcast with empty citations, and the assistant persist. -/
theorem C7_no_sources_emits_fixed_warning_witness :
    (generate_ai_suggestion ⟨0, none⟩
        ⟨false, "hi there", true, 0,
          [[⟨.val (mkRat 75 100), some "t", some "s"⟩, ⟨.missing, none, none⟩]],
          "ignored", 0⟩).1
      = [.persistCustomer "hi there", .broadcastWarning WARNING_MSG [],
          .persistAssistant WARNING_MSG] := by
  have h := C7_no_sources_emits_fixed_warning ⟨0, none⟩
    ⟨false, "hi there", true, 0,
      [[⟨.val (mkRat 75 100), some "t", some "s"⟩, ⟨.missing, none, none⟩]],
      "ignored", 0⟩
    rfl rfl (by decide)
  rw [h.1]
  decide

/-- C6 counterexample: the claim's "three highest-scoring snippets" fails.
With namespace results scoring 0.80, 0.76 (first namespace) and 0.99,
0.98 (second namespace) — four matches above the threshold — the context
passed to the model is the first three kept matches in query order, which
contains the 0.76 match even though it is not among the three
highest-scoring ones. -/
theorem C6_context_selection_counterexample :
    (keptMatches
          [[⟨.val (mkRat 80 100), some "a", some "sa"⟩,
              ⟨.val (mkRat 76 100), some "b", some "sb"⟩],
            [⟨.val (mkRat 99 100), some "c", some "sc"⟩,
              ⟨.val (mkRat 98 100), some "d", some "sd"⟩]]).length = 4
      ∧ GenEvent.modelCall
            [⟨.val (mkRat 80 100), some "a", some "sa"⟩,
              ⟨.val (mkRat 76 100), some "b", some "sb"⟩,
              ⟨.val (mkRat 99 100), some "c", some "sc"⟩]
          ∈ (generate_ai_suggestion ⟨0, none⟩
              ⟨false, "q", true, 0,
                [[⟨.val (mkRat 80 100), some "a", some "sa"⟩,
                    ⟨.val (mkRat 76 100), some "b", some "sb"⟩],
                  [⟨.val (mkRat 99 100), some "c", some "sc"⟩,
                    ⟨.val (mkRat 98 100), some "d", some "sd"⟩]],
                "resp", 0⟩).1
      ∧ (⟨.val (mkRat 76 100), some "b", some "sb"⟩ : MatchRec)
          ∉ topThreeByScore (keptMatches
              [[⟨.val (mkRat 80 100), some "a", some "sa"⟩,
                  ⟨.val (mkRat 76 100), some "b", some "sb"⟩],
                [⟨.val (mkRat 99 100), some "c", some "sc"⟩,
                  ⟨.val (mkRat 98 100), some "d", some "sd"⟩]]) := by decide

/-- C6 (amended): the pipeline keeps exactly the matches with similarity
score strictly above 0.75 (in namespace query order), assembles its
generation context from the FIRST THREE kept snippets in that order, and
attaches the source citation of every kept snippet to the delivered
suggestion. -/
theorem C6_context_selection (st0 : AIReqState) (inp : GenInput)
    (hek : inp.embedOk = true) (hreg : inp.regsDuringEmbed = 0)
    (hkept : keptMatches inp.nsMatches ≠ []) :
    keptMatches inp.nsMatches
        = inp.nsMatches.flatten.filter
            (fun m => decide (COMPLIANCE_THRESHOLD < parse_score m.score))
      ∧ GenEvent.modelCall ((keptMatches inp.nsMatches).take 3)
          ∈ (generate_ai_suggestion st0 inp).1
      ∧ (inp.regsDuringModel = 0 →
          GenEvent.broadcastSuggestion (pyStrip inp.modelResponse)
              ((keptMatches inp.nsMatches).map citationOf)
            ∈ (generate_ai_suggestion st0 inp).1) := by
  refine ⟨keptMatches_eq_filter inp.nsMatches, ?_, ?_⟩
  · unfold generate_ai_suggestion
    dsimp only
    rw [hreg, hek]
    simp [register_ai_request, is_latest_ai_request, applyRegs, hkept]
    split
    · simp
    · simp
  · intro hM
    unfold generate_ai_suggestion
    dsimp only
    rw [hreg, hek, hM]
    simp [register_ai_request, is_latest_ai_request, applyRegs, hkept]

/-- C6 witness: the amended selection applied to the counterexample's
namespaces: kept = the four above-threshold matches in query order, the
model context is the first three of them, and the delivered suggestion
carries all four citations. -/
theorem C6_context_selection_witness :
    GenEvent.broadcastSuggestion "resp"
        (List.map citationOf (keptMatches
          [[⟨.val (mkRat 80 100), some "a", some "sa"⟩,
              ⟨.val (mkRat 76 100), some "b", some "sb"⟩],
            [⟨.val (mkRat 99 100), some "c", some "sc"⟩,
              ⟨.val (mkRat 98 100), some "d", some "sd"⟩]]))
      ∈ (generate_ai_suggestion ⟨0, none⟩
          ⟨false, "q", true, 0,
            [[⟨.val (mkRat 80 100), some "a", some "sa"⟩,
                ⟨.val (mkRat 76 100), some "b", some "sb"⟩],
              [⟨.val (mkRat 99 100), some "c", some "sc"⟩,
                ⟨.val (mkRat 98 100), some "d", some "sd"⟩]],
            "resp", 0⟩).1 := by
  have h := (C6_context_selection ⟨0, none⟩
    ⟨false, "q", true, 0,
      [[⟨.val (mkRat 80 100), some "a", some "sa"⟩,
          ⟨.val (mkRat 76 100), some "b", some "sb"⟩],
        [⟨.val (mkRat 99 100), some "c", some "sc"⟩,
          ⟨.val (mkRat 98 100), some "d", some "sd"⟩]],
      "resp", 0⟩
    rfl rfl (by decide)).2.2 rfl
  have hstrip : pyStrip "resp" = "resp" := by decide
  rw [hstrip] at h
  exact h

/-- C1: once a newer AI request R2 has been registered for the same
`(meeting_id, user_id)`, the older run R1 never delivers its result: if a
newer registration happens at the embedding await, or (with non-empty
context) at the model await, no broadcast event — suggestion or compliance
warning — appears among R1's actions; the staleness re-checks make the run
return with no further side effects. -/
theorem C1_stale_request_never_delivered (st0 : AIReqState) (inp : GenInput)
    (h : 0 < inp.regsDuringEmbed
        ∨ (keptMatches inp.nsMatches ≠ [] ∧ 0 < inp.regsDuringModel)) :
    ∀ ev ∈ (generate_ai_suggestion st0 inp).1, ev.isDelivery = false := by
  intro ev hev
  have e1 : (register_ai_request st0).1 = (register_ai_request st0).2.seqCounter := rfl
  have e2 : (register_ai_request st0).2.latest
      = some (register_ai_request st0).2.seqCounter := rfl
  by_cases hE : inp.regsDuringEmbed = 0
  · rcases h with hE' | ⟨hkept, hM⟩
    · omega
    · have hlatM : is_latest_ai_request
          (applyRegs (applyRegs (register_ai_request st0).2 0) inp.regsDuringModel)
          (register_ai_request st0).1 = false := by
        rw [show (register_ai_request st0).1
              = (applyRegs (register_ai_request st0).2 0).seqCounter from rfl,
          is_latest_after_regs _ _
            (show (applyRegs (register_ai_request st0).2 0).latest
                = some ((applyRegs (register_ai_request st0).2 0).seqCounter) from rfl)]
        simp
        omega
      unfold generate_ai_suggestion at hev
      dsimp only at hev
      rw [hE, hlatM] at hev
      rcases hek : inp.embedOk <;> rcases hd : inp.isDraft <;>
        simp [hek, hd, hkept, register_ai_request, is_latest_ai_request, applyRegs] at hev <;>
        (try rcases hev with hev | hev) <;>
        simp_all [GenEvent.isDelivery]
  · have hlat : is_latest_ai_request
        (applyRegs (register_ai_request st0).2 inp.regsDuringEmbed)
        (register_ai_request st0).1 = false := by
      rw [e1, is_latest_after_regs _ _ e2]
      simp
      omega
    unfold generate_ai_suggestion at hev
    dsimp only at hev
    rw [hlat] at hev
    rcases hd : inp.isDraft <;>
      simp [hd] at hev <;>
      (try rcases hev with hev | hev) <;>
      simp_all [GenEvent.isDelivery]

/-- C1 witness: with one newer registration during the embedding await,
the run's only action is the customer persist — no delivery. -/
theorem C1_stale_request_never_delivered_witness :
    (generate_ai_suggestion ⟨0, none⟩
        ⟨false, "hello", true, 1,
          [[⟨.val (mkRat 9 10), some "t", some "s"⟩]], "resp", 0⟩).1
      = [.persistCustomer "hello"]
      ∧ ∀ ev ∈ (generate_ai_suggestion ⟨0, none⟩
          ⟨false, "hello", true, 1,
            [[⟨.val (mkRat 9 10), some "t", some "s"⟩]], "resp", 0⟩).1,
          ev.isDelivery = false := by
  refine ⟨by decide, ?_⟩
  exact C1_stale_request_never_delivered ⟨0, none⟩
    ⟨false, "hello", true, 1,
      [[⟨.val (mkRat 9 10), some "t", some "s"⟩]], "resp", 0⟩
    (Or.inl (by decide))

end AudioSvc
